import Mathlib

/-!
# Aeratron webremote — protocol encoder and device-state machine

Shallow embedding of the core of `src/src/webremote.ino`: the global device
state (`fan_ctrl`, `light_ctrl`, the static `prev_speed` of `set_speed`), the
three setters `set_light`, `set_direction`, `set_speed`, and the bit-banged
transmitter `send_command`.

Machine bytes (`char` globals) are modelled as `Nat`; the bit operations of
the source (`&`, `|`, `<<`) become `&&&`, `|||`, `<<<`. The output pin is
modelled as a trace of events: `Ev.write lvl` for a `digitalWrite` (LOW =
`false`, HIGH = `true`) and `Ev.wait us` for a delay of `us` microseconds
(`delayMicroseconds(n)` = `wait n`, `delay(ms)` = `wait (1000*ms)`).
-/

set_option maxRecDepth 1000000

namespace Aeratron

/-- `#define FAN_ADDRESS 0xF0` — static fan address. -/
def FAN_ADDRESS : Nat := 0xF0

/-- `enum light_state { LIGHT_STATE_ON = 0xDF, LIGHT_STATE_OFF = 0x00 }`. -/
inductive LightState where
  | on
  | off
deriving DecidableEq, Repr

/-- Numeric value of a `light_state` enumerator. -/
def light_state_val : LightState → Nat
  | .on => 0xDF
  | .off => 0x00

/-- `enum fan_speed { FAN_SPEED_OFF = 0, FAN_SPEED_1 = 1, …, FAN_SPEED_6 = 6,
FAN_SPEED_ON = 7 }`. -/
inductive FanSpeed where
  | off
  | s1
  | s2
  | s3
  | s4
  | s5
  | s6
  | on
deriving DecidableEq, Repr

/-- Numeric value of a `fan_speed` enumerator. -/
def fan_speed_val : FanSpeed → Nat
  | .off => 0x00
  | .s1 => 0x01
  | .s2 => 0x02
  | .s3 => 0x03
  | .s4 => 0x04
  | .s5 => 0x05
  | .s6 => 0x06
  | .on => 0x07

/-- Whether a `fan_speed` is a concrete level 1–6 (the first six cases of the
`switch` in `set_speed`). -/
def FanSpeed.isConcrete : FanSpeed → Bool
  | .s1 | .s2 | .s3 | .s4 | .s5 | .s6 => true
  | _ => false

/-- `enum fan_direction { FAN_DIRECTION_LEFT = 0x00, FAN_DIRECTION_RIGHT = 0x20 }`. -/
inductive FanDirection where
  | left
  | right
deriving DecidableEq, Repr

/-- Numeric value of a `fan_direction` enumerator. -/
def fan_direction_val : FanDirection → Nat
  | .left => 0x00
  | .right => 0x20

/-- One observable event on the data pin: a `digitalWrite` (LOW = `false`,
HIGH = `true`) or a busy wait given in microseconds. -/
inductive Ev where
  | write (lvl : Bool)
  | wait (us : Nat)
deriving DecidableEq, Repr

/-- The machine state: the two `char` globals `fan_ctrl` and `light_ctrl`,
the `static enum fan_speed prev_speed` local of `set_speed`, and the trace of
pin events emitted so far. -/
structure Machine where
  fan_ctrl : Nat
  light_ctrl : Nat
  prev_speed : FanSpeed
  trace : List Ev
deriving Repr

/-- The state right after `setup()`: `fan_ctrl = 0x00; light_ctrl = 0x00;`
and `prev_speed = FAN_SPEED_1` (its static initializer); nothing sent yet. -/
def initMachine : Machine :=
  { fan_ctrl := 0x00, light_ctrl := 0x00, prev_speed := .s1, trace := [] }

/-- Pin events of the inner bit loop `for (i=7; i>=0; i--)` of `send_command`
for one command byte: test `fan_command[j] & (1 << i)` and emit the logic-1
waveform (low 500µs, high 1000µs) or the logic-0 waveform (low 1000µs,
high 500µs). -/
def byte_trace (b : Nat) : List Ev :=
  [7, 6, 5, 4, 3, 2, 1, 0].flatMap (fun i =>
    if b &&& (1 <<< i) ≠ 0 then
      [.write false, .wait 500, .write true, .wait 1000]
    else
      [.write false, .wait 1000, .write true, .wait 500])

/-- The start bit of `send_command`: drive low 500µs, then high 1000µs. -/
def start_bit : List Ev :=
  [.write false, .wait 500, .write true, .wait 1000]

/-- Start bit followed by the 24 data bits of the frame (loop `for (j=0;
j<3; j++)` over the three command bytes). -/
def repeat_data (frame : List Nat) : List Ev :=
  start_bit ++ frame.flatMap byte_trace

/-- One iteration of the `k` loop: start bit, 24 data bits, drive low,
`delay(6)` (6 ms = 6000 µs). -/
def one_repeat (frame : List Nat) : List Ev :=
  repeat_data frame ++ [.write false, .wait 6000]

/-- `n` consecutive executions of a loop body that emits `xs`. -/
def loop_times (n : Nat) (xs : List Ev) : List Ev :=
  match n with
  | 0 => []
  | k + 1 => xs ++ loop_times k xs

/-- Full pin trace of one `send_command()` call on a given frame: the outer
loops `for (l=0; l<3; l++) { for (k=0; k<7; k++) {…; delay(6);} delay(12); }`. -/
def send_command_trace (frame : List Nat) : List Ev :=
  loop_times 3 (loop_times 7 (one_repeat frame) ++ [.wait 12000])

/-- The local `fan_command[3]` array of `send_command`:
`{FAN_ADDRESS, fan_ctrl, light_ctrl}`. -/
def fan_command (m : Machine) : List Nat :=
  [FAN_ADDRESS, m.fan_ctrl, m.light_ctrl]

/-- `send_command()`: reads the globals, drives the pin through the timed
waveform; writes none of the globals. -/
def send_command (m : Machine) : Machine :=
  { m with trace := m.trace ++ send_command_trace (fan_command m) }

/-- `set_light(ls)`: `light_ctrl = ls; send_command();`. -/
def set_light (m : Machine) (ls : LightState) : Machine :=
  send_command { m with light_ctrl := light_state_val ls }

/-- `set_direction(fd)`: `fan_ctrl &= 0x0F; fan_ctrl |= fd; send_command();`. -/
def set_direction (m : Machine) (fd : FanDirection) : Machine :=
  send_command { m with fan_ctrl := (m.fan_ctrl &&& 0x0F) ||| fan_direction_val fd }

/-- `set_speed(fs)`: the `switch` updates the static `prev_speed` on a
concrete level 1–6, replaces `fs` by `prev_speed` on `FAN_SPEED_ON`, and does
nothing on `FAN_SPEED_OFF`; then `fan_ctrl &= 0xF0; fan_ctrl |= fs;
send_command();`. -/
def set_speed (m : Machine) (fs : FanSpeed) : Machine :=
  let prev : FanSpeed :=
    match fs with
    | .s1 | .s2 | .s3 | .s4 | .s5 | .s6 => fs
    | _ => m.prev_speed
  let res : FanSpeed :=
    match fs with
    | .on => m.prev_speed
    | _ => fs
  send_command
    { m with
      prev_speed := prev
      fan_ctrl := (m.fan_ctrl &&& 0xF0) ||| fan_speed_val res }

/-- An invocation of one of the three setters (the only mutators of the
device state). -/
inductive Op where
  | light (ls : LightState)
  | direction (fd : FanDirection)
  | speed (fs : FanSpeed)
deriving DecidableEq, Repr

/-- Apply one setter call. -/
def applyOp (m : Machine) : Op → Machine
  | .light ls => set_light m ls
  | .direction fd => set_direction m fd
  | .speed fs => set_speed m fs

/-- Run a sequence of setter calls. -/
def run (m : Machine) (ops : List Op) : Machine :=
  ops.foldl applyOp m

/-! ## Spec-side definitions

These follow the words of the specification (§4.2 and §8 of `spec.md`) rather
than the source loops, so that the claims comparing the emitted waveform with
the specified encoding are genuine refinement statements. -/

/-- Spec: logic 1 = low 500µs then high 1000µs; logic 0 = low 1000µs then
high 500µs. -/
def spec_bit_wave (b : Bool) : List Ev :=
  if b then [.write false, .wait 500, .write true, .wait 1000]
  else [.write false, .wait 1000, .write true, .wait 500]

/-- Spec: the eight bits of a byte, most-significant bit first. -/
def msb_bits (b : Nat) : List Bool :=
  [b.testBit 7, b.testBit 6, b.testBit 5, b.testBit 4,
   b.testBit 3, b.testBit 2, b.testBit 1, b.testBit 0]

/-- Spec: one repeat = start bit (low 500µs / high 1000µs) followed by the
24 data bits of the three bytes `address`, `fan-control`, `light-control`,
each byte MSB-first, and nothing else. -/
def spec_repeat (a f l : Nat) : List Ev :=
  [.write false, .wait 500, .write true, .wait 1000] ++
    (msb_bits a ++ msb_bits f ++ msb_bits l).flatMap spec_bit_wave

/-- Spec: a full transmission = 3 bursts; each burst = 7 repeats, every
repeat followed by a low write and a ~6 ms pause; each burst followed by an
additional ~12 ms pause. -/
def spec_transmission (a f l : Nat) : List Ev :=
  (List.replicate 3
    ((List.replicate 7 (spec_repeat a f l ++ [.write false, .wait 6000])).flatten ++
      [.wait 12000])).flatten

/-- Level of the last `digitalWrite` in a trace, if any. -/
def lastWrite : List Ev → Option Bool
  | [] => none
  | e :: rest =>
    match lastWrite rest with
    | some b => some b
    | none =>
      match e with
      | .write b => some b
      | .wait _ => none

/-! ## Helper lemmas -/

/-- The `if` condition of the bit loop, `fan_command[j] & (1 << i)`, is the
`i`-th bit of the byte. -/
lemma and_shift_ne (x i : Nat) : (x &&& (1 <<< i) ≠ 0) ↔ x.testBit i = true := by
  rw [Nat.shiftLeft_eq, one_mul, Nat.and_two_pow]
  cases h : x.testBit i <;> simp [h]

/-- Exhaustive check: ORing a value below 16 into a byte with clear low
nibble puts exactly that value in the low nibble. -/
lemma or_low_nibble_aux :
    ∀ y < 256, ∀ v < 16, y &&& 0x0F = 0 → (y ||| v) &&& 0x0F = v := by
  decide

/-- Exhaustive check: ORing a value below 16 into a byte does not change the
high nibble. -/
lemma or_high_nibble_aux :
    ∀ y < 256, ∀ v < 16, (y ||| v) &&& 0xF0 = y &&& 0xF0 := by
  decide

/-- Exhaustive check: ORing a direction pattern (low nibble clear) into a
low nibble does not change that nibble. -/
lemma or_dir_nibble_aux :
    ∀ y < 16, ∀ d < 256, d &&& 0x0F = 0 → (y ||| d) &&& 0x0F = y := by
  decide

lemma and_240_lt (x : Nat) : x &&& 0xF0 < 256 :=
  Nat.lt_of_le_of_lt Nat.and_le_right (by norm_num)

lemma and_240_low (x : Nat) : (x &&& 0xF0) &&& 0x0F = 0 := by
  rw [Nat.and_assoc, show (0xF0 &&& 0x0F : Nat) = 0 from rfl, Nat.and_zero]

/-- `fan_ctrl &= 0xF0; fan_ctrl |= v` puts `v` in the low nibble. -/
lemma or_low_nibble (x v : Nat) (hv : v < 16) :
    ((x &&& 0xF0) ||| v) &&& 0x0F = v :=
  or_low_nibble_aux (x &&& 0xF0) (and_240_lt x) v hv (and_240_low x)

/-- `fan_ctrl &= 0xF0; fan_ctrl |= v` keeps the high nibble. -/
lemma or_high_nibble (x v : Nat) (hv : v < 16) :
    ((x &&& 0xF0) ||| v) &&& 0xF0 = x &&& 0xF0 := by
  rw [or_high_nibble_aux (x &&& 0xF0) (and_240_lt x) v hv, Nat.and_assoc,
    show (0xF0 &&& 0xF0 : Nat) = 0xF0 from rfl]

/-- Every `fan_speed` enumerator value is below 16. -/
lemma fan_speed_val_lt (fs : FanSpeed) : fan_speed_val fs < 16 := by
  cases fs <;> decide

/-- A concrete `fan_speed` level has value at most 6. -/
lemma fan_speed_val_le_of_concrete (fs : FanSpeed) (h : fs.isConcrete = true) :
    fan_speed_val fs ≤ 6 := by
  cases fs <;> first
    | decide
    | exact absurd h (by decide)

/-- `fan_direction` enumerator values have a clear low nibble, and are bytes. -/
lemma fan_direction_val_props (fd : FanDirection) :
    fan_direction_val fd &&& 0x0F = 0 ∧ fan_direction_val fd < 256 := by
  cases fd <;> decide

/-- `fan_ctrl &= 0x0F; fan_ctrl |= fd` keeps the low nibble. -/
lemma dir_keeps_low_nibble (x : Nat) (fd : FanDirection) :
    ((x &&& 0x0F) ||| fan_direction_val fd) &&& 0x0F = x &&& 0x0F := by
  have hy : x &&& 0x0F < 16 :=
    Nat.lt_of_le_of_lt Nat.and_le_right (by norm_num)
  exact or_dir_nibble_aux (x &&& 0x0F) hy (fan_direction_val fd)
    (fan_direction_val_props fd).2 (fan_direction_val_props fd).1

/-- The inner bit loop of `send_command` emits exactly the spec's MSB-first
bit waveforms for the byte. -/
lemma byte_trace_eq_spec (x : Nat) :
    byte_trace x = (msb_bits x).flatMap spec_bit_wave := by
  simp only [byte_trace, msb_bits, spec_bit_wave, List.flatMap_cons, List.flatMap_nil,
    List.append_nil]
  simp only [and_shift_ne]

/-- Start bit plus byte loop of `send_command` equals the spec's repeat
waveform. -/
lemma repeat_data_eq_spec (a f l : Nat) :
    repeat_data [a, f, l] = spec_repeat a f l := by
  simp [repeat_data, spec_repeat, byte_trace_eq_spec, start_bit]

/-- The full loop nest of `send_command` equals the spec's burst structure. -/
lemma trace_eq_spec (a f l : Nat) :
    send_command_trace [a, f, l] = spec_transmission a f l := by
  simp [send_command_trace, spec_transmission, loop_times, one_repeat,
    repeat_data_eq_spec, List.replicate, List.append_assoc]

/-- The transmitted trace ends, after the last repeat's start bit and 24
data bits, with the final low write, the 6 ms pause and the 12 ms pause. -/
lemma trace_tail_split (a f l : Nat) :
    send_command_trace [a, f, l] =
      (loop_times 2 (loop_times 7 (one_repeat [a, f, l]) ++ [.wait 12000]) ++
          loop_times 6 (one_repeat [a, f, l])) ++
        repeat_data [a, f, l] ++
        [Ev.write false, Ev.wait 6000, Ev.wait 12000] := by
  simp [send_command_trace, loop_times, one_repeat, List.append_assoc]

/-- If the second part of a trace contains a write, the last write of the
whole trace is the last write of the second part. -/
lemma lastWrite_append_of_some {ys : List Ev} {b : Bool}
    (h : lastWrite ys = some b) (xs : List Ev) :
    lastWrite (xs ++ ys) = some b := by
  induction xs with
  | nil => simpa using h
  | cons e rest ih => simp [lastWrite, ih]

/-- `set_speed` with a concrete level records it in `prev_speed`. -/
lemma set_speed_prev_concrete (m : Machine) (fs : FanSpeed)
    (h : fs.isConcrete = true) : (set_speed m fs).prev_speed = fs := by
  cases fs <;> first
    | rfl
    | exact absurd h (by decide)

lemma set_speed_on_prev (m : Machine) :
    (set_speed m .on).prev_speed = m.prev_speed := rfl

lemma set_speed_off_prev (m : Machine) :
    (set_speed m .off).prev_speed = m.prev_speed := rfl

/-- A run of `set_speed(OFF)` calls leaves `prev_speed` unchanged. -/
lemma foldl_off_prev (mid : List FanSpeed)
    (h : ∀ x ∈ mid, x = FanSpeed.off) (m : Machine) :
    (List.foldl set_speed m mid).prev_speed = m.prev_speed := by
  induction mid generalizing m with
  | nil => rfl
  | cons x rest ih =>
    have hx : x = FanSpeed.off := h x (by simp)
    subst hx
    rw [List.foldl_cons, ih (fun y hy => h y (by simp [hy])), set_speed_off_prev]

/-- `set_speed(ON)` stores the value of `prev_speed` in the low nibble. -/
lemma set_speed_on_low (m : Machine) :
    ((set_speed m .on).fan_ctrl &&& 0x0F) = fan_speed_val m.prev_speed := by
  exact or_low_nibble m.fan_ctrl (fan_speed_val m.prev_speed)
    (fan_speed_val_lt m.prev_speed)

/-- For any request other than `FAN_SPEED_ON`, the low nibble written by
`set_speed` is the value of the request itself. -/
lemma set_speed_low_of_ne_on (m : Machine) (fs : FanSpeed) (h : fs ≠ .on) :
    ((set_speed m fs).fan_ctrl &&& 0x0F) = fan_speed_val fs := by
  cases fs <;> first
    | exact or_low_nibble _ _ (fan_speed_val_lt _)
    | exact absurd rfl h

/-- Occurrences of one event in a trace. -/
def countEv (e : Ev) : List Ev → Nat
  | [] => 0
  | x :: rest => (if x = e then 1 else 0) + countEv e rest

lemma countEv_append (e : Ev) (xs ys : List Ev) :
    countEv e (xs ++ ys) = countEv e xs + countEv e ys := by
  induction xs with
  | nil => simp [countEv]
  | cons x rest ih => simp [countEv, ih]; omega

/-- Data-bit waveforms contain neither a 6 ms nor a 12 ms pause. -/
lemma countEv_bits (bs : List Bool) :
    countEv (Ev.wait 6000) (bs.flatMap spec_bit_wave) = 0 ∧
    countEv (Ev.wait 12000) (bs.flatMap spec_bit_wave) = 0 := by
  induction bs with
  | nil => exact ⟨rfl, rfl⟩
  | cons b rest ih =>
    constructor
    · rw [List.flatMap_cons, countEv_append, ih.1]
      cases b <;> rfl
    · rw [List.flatMap_cons, countEv_append, ih.2]
      cases b <;> rfl

/-- One repeat waveform contains neither a 6 ms nor a 12 ms pause. -/
lemma countEv_spec_repeat (a f l : Nat) :
    countEv (Ev.wait 6000) (spec_repeat a f l) = 0 ∧
    countEv (Ev.wait 12000) (spec_repeat a f l) = 0 := by
  have h := countEv_bits (msb_bits a ++ msb_bits f ++ msb_bits l)
  constructor
  · rw [spec_repeat, countEv_append, h.1]
    rfl
  · rw [spec_repeat, countEv_append, h.2]
    rfl

/-- A full transmission contains exactly 21 pauses of 6 ms (one per repeat)
and exactly 3 pauses of 12 ms (one per burst). -/
lemma countEv_spec_transmission (a f l : Nat) :
    countEv (Ev.wait 6000) (spec_transmission a f l) = 21 ∧
    countEv (Ev.wait 12000) (spec_transmission a f l) = 3 := by
  have h6 := (countEv_spec_repeat a f l).1
  have h12 := (countEv_spec_repeat a f l).2
  constructor <;>
    · simp only [spec_transmission, List.replicate, List.flatten_cons,
        List.flatten_nil, countEv_append, h6, h12, List.append_nil]
      decide

/-- `set_speed` appends exactly one transmission of the new frame. -/
lemma set_speed_trace (m : Machine) (fs : FanSpeed) :
    (set_speed m fs).trace =
      m.trace ++ send_command_trace (fan_command (set_speed m fs)) := by
  cases fs <;> rfl

/-- `set_direction` appends exactly one transmission of the new frame. -/
lemma set_direction_trace (m : Machine) (fd : FanDirection) :
    (set_direction m fd).trace =
      m.trace ++ send_command_trace (fan_command (set_direction m fd)) := rfl

/-- `set_light` appends exactly one transmission of the new frame. -/
lemma set_light_trace (m : Machine) (ls : LightState) :
    (set_light m ls).trace =
      m.trace ++ send_command_trace (fan_command (set_light m ls)) := rfl

/-- Setter calls allowed before the first concrete speed level in claim C4:
`set_light`, `set_direction` and `set_speed(OFF)`. -/
def allowedBeforeLevel : Op → Bool
  | .light _ => true
  | .direction _ => true
  | .speed fs => fs = FanSpeed.off

lemma applyOp_prev (m : Machine) (op : Op) (h : allowedBeforeLevel op = true) :
    (applyOp m op).prev_speed = m.prev_speed := by
  cases op with
  | light ls => rfl
  | direction fd => rfl
  | speed fs =>
    have hfs : fs = FanSpeed.off := by
      cases fs <;> simp_all [allowedBeforeLevel]
    subst hfs
    rfl

lemma run_prev (ops : List Op) (h : ∀ op ∈ ops, allowedBeforeLevel op = true)
    (m : Machine) : (run m ops).prev_speed = m.prev_speed := by
  induction ops generalizing m with
  | nil => rfl
  | cons op rest ih =>
    show (run (applyOp m op) rest).prev_speed = m.prev_speed
    rw [ih (fun x hx => h x (by simp [hx])) (applyOp m op),
      applyOp_prev m op (h op (by simp))]

/-- The reachability invariant of claim C8: the persisted low nibble is a
resolved speed (0–6), and `prev_speed` only ever holds a concrete level. -/
def Inv (m : Machine) : Prop :=
  (m.fan_ctrl &&& 0x0F) ≤ 6 ∧ m.prev_speed.isConcrete = true

lemma inv_init : Inv initMachine :=
  ⟨by decide, by decide⟩

lemma inv_applyOp (m : Machine) (op : Op) (h : Inv m) : Inv (applyOp m op) := by
  obtain ⟨h1, h2⟩ := h
  cases op with
  | light ls => exact ⟨h1, h2⟩
  | direction fd =>
    refine ⟨?_, h2⟩
    show ((m.fan_ctrl &&& 0x0F) ||| fan_direction_val fd) &&& 0x0F ≤ 6
    rw [dir_keeps_low_nibble]
    exact h1
  | speed fs =>
    constructor
    · show (set_speed m fs).fan_ctrl &&& 0x0F ≤ 6
      cases fs <;> first
        | · rw [set_speed_on_low]
            exact fan_speed_val_le_of_concrete m.prev_speed h2
        | · rw [set_speed_low_of_ne_on m _ (by decide)]
            decide
    · show (set_speed m fs).prev_speed.isConcrete = true
      cases fs <;> first
        | exact h2
        | rfl

lemma inv_run (ops : List Op) (m : Machine) (h : Inv m) : Inv (run m ops) := by
  induction ops generalizing m with
  | nil => exact h
  | cons op rest ih => exact ih (applyOp m op) (inv_applyOp m op h)

/-! ## Claim theorems -/

/-- C1: for every 3-byte frame, one repeat of the waveform (the per-repeat
body of `send_command` before the trailing low write) is exactly a start bit
(low 500µs / high 1000µs) followed by the 24 data bits of the bytes address,
fan-control, light-control in order, MSB-first, with a 1-bit low 500µs /
high 1000µs and a 0-bit low 1000µs / high 500µs and no other pulses
mid-repeat; in particular for the frame `{0xF0, 0x05, 0xDF}` the per-repeat
pulse sequence is exactly the one this encoding determines. -/
theorem C1_repeat_encoding :
    (∀ a f l : Nat, repeat_data [a, f, l] = spec_repeat a f l) ∧
    (∀ a f l : Nat, (msb_bits a ++ msb_bits f ++ msb_bits l).length = 24) ∧
    repeat_data [0xF0, 0x05, 0xDF] = spec_repeat 0xF0 0x05 0xDF := by
  refine ⟨repeat_data_eq_spec, ?_, repeat_data_eq_spec 0xF0 0x05 0xDF⟩
  intro a f l
  simp [msb_bits]

/-- C2: every `send_command` invocation emits the same 3-byte frame exactly
21 times, as 3 bursts of 7 repeats; after the 24 data bits of each repeat
the pin is driven low and held ~6 ms before the next repeat, and after each
burst of 7 repeats an additional ~12 ms pause is inserted. The counts of the
6 ms and 12 ms pauses in the whole trace are exactly 21 and 3. -/
theorem C2_burst_structure (a f l : Nat) :
    send_command_trace [a, f, l] = spec_transmission a f l ∧
    countEv (Ev.wait 6000) (send_command_trace [a, f, l]) = 21 ∧
    countEv (Ev.wait 12000) (send_command_trace [a, f, l]) = 3 := by
  rw [trace_eq_spec]
  exact ⟨rfl, (countEv_spec_transmission a f l).1, (countEv_spec_transmission a f l).2⟩

/-- C3: `set_speed(ON)` resolves to the most recent concrete level set
before it, across any run of intervening `set_speed(OFF)` calls;
`prev_speed` (the spec's `lastActiveSpeed`) is updated only by a concrete
level 1–6 and is unchanged by the ON and OFF branches. -/
theorem C3_resume_last_speed (m : Machine) (lvl : FanSpeed)
    (hc : lvl.isConcrete = true) (mid : List FanSpeed)
    (hmid : ∀ x ∈ mid, x = FanSpeed.off) :
    ((set_speed (List.foldl set_speed (set_speed m lvl) mid) .on).fan_ctrl &&& 0x0F)
        = fan_speed_val lvl ∧
    (List.foldl set_speed (set_speed m lvl) mid).prev_speed = lvl ∧
    (∀ m' : Machine, (set_speed m' .on).prev_speed = m'.prev_speed ∧
      (set_speed m' .off).prev_speed = m'.prev_speed) ∧
    (∀ (m' : Machine) (fs : FanSpeed), fs.isConcrete = true →
      (set_speed m' fs).prev_speed = fs) := by
  have hprev : (List.foldl set_speed (set_speed m lvl) mid).prev_speed = lvl := by
    rw [foldl_off_prev mid hmid, set_speed_prev_concrete m lvl hc]
  refine ⟨?_, hprev, fun m' => ⟨set_speed_on_prev m', set_speed_off_prev m'⟩,
    fun m' fs h => set_speed_prev_concrete m' fs h⟩
  rw [set_speed_on_low, hprev]

/-- Witness for C3 at a concrete input: level 5 set, two OFF calls, then ON
resolves back to 5. -/
theorem C3_resume_last_speed_witness :
    FanSpeed.isConcrete .s5 = true ∧
    (∀ x ∈ ([.off, .off] : List FanSpeed), x = FanSpeed.off) ∧
    ((set_speed (List.foldl set_speed (set_speed initMachine .s5) [.off, .off])
        .on).fan_ctrl &&& 0x0F) = fan_speed_val .s5 :=
  ⟨by decide, by decide,
    (C3_resume_last_speed initMachine .s5 (by decide) [.off, .off] (by decide)).1⟩

/-- C4: if `set_speed(ON)` is called before any concrete level was ever set
(after any run of `set_light`, `set_direction` and `set_speed(OFF)` calls
from the initial state), the resolved speed stored in the low nibble is the
initialization default, level 1. -/
theorem C4_on_default_level1 (ops : List Op)
    (h : ∀ op ∈ ops, allowedBeforeLevel op = true) :
    ((set_speed (run initMachine ops) .on).fan_ctrl &&& 0x0F) = 0x01 := by
  rw [set_speed_on_low, run_prev ops h initMachine]
  rfl

/-- Witness for C4 at a concrete input: light on, direction right, fan off,
then ON resolves to level 1. -/
theorem C4_on_default_level1_witness :
    (∀ op ∈ ([.light .on, .direction .right, .speed .off] : List Op),
      allowedBeforeLevel op = true) ∧
    ((set_speed (run initMachine [.light .on, .direction .right, .speed .off])
        .on).fan_ctrl &&& 0x0F) = 0x01 :=
  ⟨by decide, C4_on_default_level1 [.light .on, .direction .right, .speed .off]
    (by decide)⟩

/-- C5: from the initial state, `setSpeed(3); setDirection(RIGHT);
setSpeed(OFF); setSpeed(ON)` transmits in order the frames
`{0xF0,0x03,0x00}`, `{0xF0,0x23,0x00}`, `{0xF0,0x20,0x00}`,
`{0xF0,0x23,0x00}`; `prev_speed` is still 3 after the OFF step, and after
each step the readable state (`fan_ctrl`, `light_ctrl`) equals the bytes the
transmitted frame encodes. -/
theorem C5_scenario :
    (set_speed initMachine .s3).fan_ctrl = 0x03 ∧
    (set_speed initMachine .s3).light_ctrl = 0x00 ∧
    (set_speed initMachine .s3).prev_speed = .s3 ∧
    fan_command (set_speed initMachine .s3) = [0xF0, 0x03, 0x00] ∧
    (set_direction (set_speed initMachine .s3) .right).fan_ctrl = 0x23 ∧
    (set_direction (set_speed initMachine .s3) .right).light_ctrl = 0x00 ∧
    fan_command (set_direction (set_speed initMachine .s3) .right) =
      [0xF0, 0x23, 0x00] ∧
    (set_speed (set_direction (set_speed initMachine .s3) .right) .off).fan_ctrl
      = 0x20 ∧
    (set_speed (set_direction (set_speed initMachine .s3) .right) .off).prev_speed
      = .s3 ∧
    fan_command (set_speed (set_direction (set_speed initMachine .s3) .right) .off)
      = [0xF0, 0x20, 0x00] ∧
    (set_speed (set_speed (set_direction (set_speed initMachine .s3) .right) .off)
      .on).fan_ctrl = 0x23 ∧
    fan_command (set_speed (set_speed (set_direction (set_speed initMachine .s3)
      .right) .off) .on) = [0xF0, 0x23, 0x00] ∧
    (set_speed (set_speed (set_direction (set_speed initMachine .s3) .right) .off)
        .on).trace =
      send_command_trace [0xF0, 0x03, 0x00] ++ send_command_trace [0xF0, 0x23, 0x00]
        ++ send_command_trace [0xF0, 0x20, 0x00]
        ++ send_command_trace [0xF0, 0x23, 0x00] := by
  have h1 : fan_command (set_speed initMachine .s3) = [0xF0, 0x03, 0x00] := by
    decide
  have h2 : fan_command (set_direction (set_speed initMachine .s3) .right) =
      [0xF0, 0x23, 0x00] := by decide
  have h3 : fan_command
      (set_speed (set_direction (set_speed initMachine .s3) .right) .off) =
      [0xF0, 0x20, 0x00] := by decide
  have h4 : fan_command (set_speed (set_speed (set_direction
      (set_speed initMachine .s3) .right) .off) .on) = [0xF0, 0x23, 0x00] := by
    decide
  refine ⟨by decide, by decide, by decide, h1, by decide, by decide, h2,
    by decide, by decide, h3, by decide, h4, ?_⟩
  rw [set_speed_trace, set_speed_trace, set_direction_trace, set_speed_trace,
    h1, h2, h3, h4]
  simp [initMachine]

/-- C6: for every prior state and argument, `set_direction` leaves the low
nibble (speed bits) of `fan_ctrl` unchanged, and `set_speed` leaves the high
bits (direction bits) of `fan_ctrl` unchanged. -/
theorem C6_nibble_separation (m : Machine) (fd : FanDirection) (fs : FanSpeed) :
    ((set_direction m fd).fan_ctrl &&& 0x0F) = m.fan_ctrl &&& 0x0F ∧
    ((set_speed m fs).fan_ctrl &&& 0xF0) = m.fan_ctrl &&& 0xF0 := by
  constructor
  · exact dir_keeps_low_nibble m.fan_ctrl fd
  · cases fs <;> exact or_high_nibble _ _ (fan_speed_val_lt _)

/-- C7: `set_light` unconditionally overwrites `light_ctrl` with the fixed
byte of the requested state (the non-zero ON pattern `0xDF`, or `0x00` for
OFF); in particular, from any state, `setLight(OFF)` then `setLight(ON)`
leaves `light_ctrl = 0xDF`, independent of `fan_ctrl` and `prev_speed`. -/
theorem C7_light_overwrite (m : Machine) (ls : LightState) :
    (set_light m ls).light_ctrl = light_state_val ls ∧
    light_state_val .on = 0xDF ∧
    light_state_val .off = 0x00 ∧
    light_state_val .on ≠ 0 ∧
    (set_light (set_light m .off) .on).light_ctrl = 0xDF :=
  ⟨rfl, rfl, rfl, by decide, rfl⟩

/-- C8: in every state reachable from the initial state by setter calls, the
low nibble of `fan_ctrl` is in {0..6}; the symbolic value 7 (ON) is never
persisted in `fan_ctrl`. -/
theorem C8_low_nibble_invariant (ops : List Op) :
    ((run initMachine ops).fan_ctrl &&& 0x0F) ≤ 6 ∧
    ((run initMachine ops).fan_ctrl &&& 0x0F) ≠ 7 := by
  obtain ⟨ha, hb⟩ := inv_run ops initMachine inv_init
  exact ⟨ha, by omega⟩

/-- C9: each operation modifies only its own part of the state: `set_light`
leaves `fan_ctrl` and `prev_speed` unchanged; `set_direction` and
`set_speed` leave `light_ctrl` unchanged; `set_direction` leaves
`prev_speed` unchanged; and `send_command` modifies none of `fan_ctrl`,
`light_ctrl`, `prev_speed`. -/
theorem C9_frame_effects (m : Machine) (ls : LightState) (fd : FanDirection)
    (fs : FanSpeed) :
    (set_light m ls).fan_ctrl = m.fan_ctrl ∧
    (set_light m ls).prev_speed = m.prev_speed ∧
    (set_direction m fd).light_ctrl = m.light_ctrl ∧
    (set_direction m fd).prev_speed = m.prev_speed ∧
    (set_speed m fs).light_ctrl = m.light_ctrl ∧
    (send_command m).fan_ctrl = m.fan_ctrl ∧
    (send_command m).light_ctrl = m.light_ctrl ∧
    (send_command m).prev_speed = m.prev_speed := by
  refine ⟨rfl, rfl, rfl, rfl, ?_, rfl, rfl, rfl⟩
  cases fs <;> rfl

/-- C10: every transmitter invocation appends its trace and that trace ends,
right after the last repeat's start bit and 24 data bits, with the final
low write followed only by the ~6 ms and ~12 ms pauses; so the last write of
the whole transmission drives the line LOW and it is not restored to
idle-high. -/
theorem C10_line_left_low (m : Machine) :
    (send_command m).trace = m.trace ++ send_command_trace (fan_command m) ∧
    (∃ pre, send_command_trace (fan_command m) =
      pre ++ repeat_data (fan_command m) ++
        [Ev.write false, Ev.wait 6000, Ev.wait 12000]) ∧
    lastWrite (send_command_trace (fan_command m)) = some false := by
  refine ⟨rfl, ⟨_, trace_tail_split FAN_ADDRESS m.fan_ctrl m.light_ctrl⟩, ?_⟩
  rw [show fan_command m = [FAN_ADDRESS, m.fan_ctrl, m.light_ctrl] from rfl,
    trace_tail_split FAN_ADDRESS m.fan_ctrl m.light_ctrl, List.append_assoc]
  exact lastWrite_append_of_some (lastWrite_append_of_some
    (show lastWrite [Ev.write false, Ev.wait 6000, Ev.wait 12000] = some false
      from rfl) _) _

end Aeratron
